import Mathlib

/-
Verification of the Zypher / Aegis CDP protocol specification.

The on-chain program (positions, mint/burn, hedge trigger, prediction
markets) is shallowly embedded below. Machine integers are Nat with
explicit u64 bounds checks where the protocol performs checked
arithmetic; timestamps are Int (Unix seconds, i64 on chain); identities
and token mints are abstracted as Nat; fallible entry points return
Except. Client-side helpers from the web front end
(generateMpcShares, isValidPublicKey with its base58 encoding) are
embedded from frontend/zypherweb/lib/solana.ts.
-/

namespace Zypher

/-- Maximum value representable in an unsigned 64-bit integer. -/
def U64MAX : Nat := 2 ^ 64 - 1

/-- Decidable equality for Except results, used to evaluate concrete
entry-point calls. -/
instance {e a : Type} [DecidableEq e] [DecidableEq a] : DecidableEq (Except e a) := fun x y =>
  match x, y with
  | .error e1, .error e2 =>
    if h : e1 = e2 then .isTrue (by rw [h]) else .isFalse (by intro hc; cases hc; exact h rfl)
  | .ok a1, .ok a2 =>
    if h : a1 = a2 then .isTrue (by rw [h]) else .isFalse (by intro hc; cases hc; exact h rfl)
  | .error _, .ok _ => .isFalse (by intro hc; cases hc)
  | .ok _, .error _ => .isFalse (by intro hc; cases hc)

/-- Protocol error kinds, from the specification's error taxonomy. -/
inductive ProtocolError where
  | AlreadyInit
  | InvalidRatio
  | OracleMismatch
  | Unauthorized
  | InvalidCollateral
  | ZeroAmount
  | UnderCollateralized
  | Overflow
  | InsufficientBalance
  | NotUndercollateralized
  | HedgeTooFrequent
  | InvalidResolutionTime
  | QuestionTooLong
  | AlreadyExists
  | MarketResolved
  | BettingClosed
  | TooEarly
  | AlreadyResolved
  | NothingToClaim
  deriving DecidableEq, Repr

/-- GlobalConfig record from the data model: admin identity, minimum
collateralization ratio (fixed point), hedge cooldown, the paired
collateral/oracle lists, and the peg token mint. -/
structure GlobalConfig where
  admin : Nat
  minCollateralRatio : Nat
  hedgeIntervalSeconds : Int
  approvedCollaterals : List Nat
  oracleAccounts : List Nat
  pegTokenMint : Nat
  deriving DecidableEq, Repr

/-- UserPosition record from the data model: owner, per-collateral
deposited amounts, outstanding minted debt, privacy commitment bytes,
and the timestamp of the last accepted hedge trigger. -/
structure UserPosition where
  owner : Nat
  depositedCollateral : List Nat
  mintedDebt : Nat
  encryptedPositionHash : List Nat
  lastHedgeTimestamp : Int
  deriving DecidableEq, Repr

/-- PredictionMarket record from the data model. -/
structure PredictionMarket where
  creator : Nat
  resolutionOracle : Nat
  questionHash : List Nat
  resolutionTime : Int
  yesPool : Nat
  noPool : Nat
  resolved : Bool
  winningOutcome : Option Bool
  deriving DecidableEq, Repr

/-- Modelled from the spec: a freshly created (space-allocated) position,
as created on first mint — zero deposits, zero debt, zeroed commitment,
and lastHedgeTimestamp 0 before first use. The on-chain account
creation code is not in the repository sources. -/
def newUserPosition (owner numCollaterals : Nat) : UserPosition :=
  { owner := owner
    depositedCollateral := List.replicate numCollaterals 0
    mintedDebt := 0
    encryptedPositionHash := List.replicate 32 0
    lastHedgeTimestamp := 0 }

/-- Hard floor on the minimum collateralization ratio: 100% at 1e8
fixed-point scale. -/
def ratioFloor : Nat := 100000000

/-- Modelled from the spec: initializeConfig. Fails AlreadyInit when
the record exists, InvalidRatio when minRatio is below the hard floor,
OracleMismatch when the collateral and oracle lists have different
lengths or either is empty; otherwise persists the record with the
caller as admin. The on-chain handler is not in the repository
sources. -/
def initConfig (existing : Option GlobalConfig) (admin : Nat) (minRatio : Nat)
    (hedgeInterval : Int) (collaterals oracles : List Nat) (pegMint : Nat) :
    Except ProtocolError GlobalConfig :=
  match existing with
  | some _ => .error .AlreadyInit
  | none =>
    if minRatio < ratioFloor then .error .InvalidRatio
    else if collaterals.length ≠ oracles.length ∨ collaterals = [] ∨ oracles = [] then
      .error .OracleMismatch
    else
      .ok { admin := admin
            minCollateralRatio := minRatio
            hedgeIntervalSeconds := hedgeInterval
            approvedCollaterals := collaterals
            oracleAccounts := oracles
            pegTokenMint := pegMint }

/-- Modelled from the spec: mintPegToken (mint_aegis). Validates the
collateral index and positive amounts, computes the collateral value
depositAmount × oraclePrice with checked u64 arithmetic, requires
collateralValue × 100 ≥ mintAmount × minCollateralRatio (else
UnderCollateralized), updates the position with checked additions and
mints mintAmount peg tokens to the caller (the second component of the
result). Every arithmetic step that would exceed u64 fails Overflow
rather than wrapping. The on-chain handler is not in the repository
sources. -/
def mintPegToken (cfg : GlobalConfig) (pos : UserPosition) (oraclePrice : Nat)
    (collateralIndex depositAmount mintAmount : Nat) :
    Except ProtocolError (UserPosition × Nat) :=
  if collateralIndex < cfg.approvedCollaterals.length then
    if depositAmount = 0 then .error .ZeroAmount
    else if mintAmount = 0 then .error .ZeroAmount
    else if U64MAX < depositAmount * oraclePrice then .error .Overflow
    else if U64MAX < depositAmount * oraclePrice * 100 then .error .Overflow
    else if U64MAX < mintAmount * cfg.minCollateralRatio then .error .Overflow
    else if depositAmount * oraclePrice * 100 < mintAmount * cfg.minCollateralRatio then
      .error .UnderCollateralized
    else if U64MAX < pos.depositedCollateral.getD collateralIndex 0 + depositAmount then
      .error .Overflow
    else if U64MAX < pos.mintedDebt + mintAmount then .error .Overflow
    else
      .ok ({ pos with
              depositedCollateral :=
                pos.depositedCollateral.set collateralIndex
                  (pos.depositedCollateral.getD collateralIndex 0 + depositAmount)
              mintedDebt := pos.mintedDebt + mintAmount }, mintAmount)
  else .error .InvalidCollateral

/-- Modelled from the spec: burnPegToken. Requires burnAmount > 0 (else
ZeroAmount) and burnAmount ≤ mintedDebt (else InsufficientBalance) and
the signer to match the position owner (else Unauthorized); burns the
peg tokens and decreases mintedDebt by burnAmount. The on-chain handler
is not in the repository sources. -/
def burnPegToken (pos : UserPosition) (signer : Nat) (burnAmount : Nat) :
    Except ProtocolError UserPosition :=
  if burnAmount = 0 then .error .ZeroAmount
  else if pos.mintedDebt < burnAmount then .error .InsufficientBalance
  else if signer ≠ pos.owner then .error .Unauthorized
  else .ok { pos with mintedDebt := pos.mintedDebt - burnAmount }

/-- Expected fixed length of the opaque hedge proof blob (the test
suite submits 64-byte proofs). -/
def hedgeProofLen : Nat := 64

/-- Modelled from the spec: triggerHedge. Requires the signer to be the
position owner or the authorized agent (else Unauthorized), then
now − lastHedgeTimestamp ≥ hedgeIntervalSeconds (else HedgeTooFrequent),
then a correctly sized opaque proof (placeholder acceptance; a wrongly
sized proof is rejected with Unauthorized, the only other failure kind
the interface table names for this entry point). On success it sets
lastHedgeTimestamp := now; the decision flag is an off-chain audit
signal and moves no funds. The on-chain handler is not in the
repository sources. -/
def triggerHedge (cfg : GlobalConfig) (pos : UserPosition) (signer agent : Nat)
    (_decision : Bool) (proof : List Nat) (now : Int) :
    Except ProtocolError UserPosition :=
  if signer ≠ pos.owner ∧ signer ≠ agent then .error .Unauthorized
  else if now - pos.lastHedgeTimestamp < cfg.hedgeIntervalSeconds then
    .error .HedgeTooFrequent
  else if proof.length ≠ hedgeProofLen then .error .Unauthorized
  else .ok { pos with lastHedgeTimestamp := now }

/-- Maximum question length for a prediction market, in bytes. -/
def questionMaxLen : Nat := 64

/-- Modelled from the spec: createPredictionMarket. Re-creation of an
existing id fails AlreadyExists; resolutionTime must be strictly in the
future (else InvalidResolutionTime); the question length is bounded
(else QuestionTooLong); the created market starts with empty pools and
resolved = false. The on-chain handler is not in the repository
sources. -/
def createPredictionMarket (existing : Option PredictionMarket)
    (creator resolutionOracle _marketId : Nat) (resolutionTime : Int)
    (question : List Nat) (now : Int) : Except ProtocolError PredictionMarket :=
  match existing with
  | some _ => .error .AlreadyExists
  | none =>
    if resolutionTime ≤ now then .error .InvalidResolutionTime
    else if questionMaxLen < question.length then .error .QuestionTooLong
    else
      .ok { creator := creator
            resolutionOracle := resolutionOracle
            questionHash := question
            resolutionTime := resolutionTime
            yesPool := 0
            noPool := 0
            resolved := false
            winningOutcome := none }

/-- Modelled from the spec: betOnMarket. Requires amount > 0 (else
ZeroAmount), an unresolved market (else MarketResolved), and the
current time to be before resolutionTime (else BettingClosed);
transfers the stake and increments the chosen side's pool. The
on-chain handler is not in the repository sources. -/
def betOnMarket (mkt : PredictionMarket) (side : Bool) (amount : Nat) (now : Int) :
    Except ProtocolError PredictionMarket :=
  if amount = 0 then .error .ZeroAmount
  else if mkt.resolved then .error .MarketResolved
  else if mkt.resolutionTime ≤ now then .error .BettingClosed
  else if side then .ok { mkt with yesPool := mkt.yesPool + amount }
  else .ok { mkt with noPool := mkt.noPool + amount }

/-- Runs a sequence of bets against a market at a fixed time; a
rejected bet leaves the market unchanged and the sequence continues. -/
def processBets (now : Int) : PredictionMarket → List (Bool × Nat) → PredictionMarket
  | mkt, [] => mkt
  | mkt, b :: rest =>
    match betOnMarket mkt b.1 b.2 now with
    | .ok m2 => processBets now m2 rest
    | .error _ => processBets now mkt rest

/-- Sum of the amounts of the bets on a given side that would be
accepted (positive amounts) in a bet sequence. -/
def sideSum (side : Bool) : List (Bool × Nat) → Nat
  | [] => 0
  | b :: rest => (if b.1 = side ∧ 0 < b.2 then b.2 else 0) + sideSum side rest

/-- Embeds generateMpcShares from frontend/zypherweb/lib/solana.ts:
builds totalShares 32-byte buffers, fills every byte from the random
source, then overwrites byte 0 of share 0 with the secret (1 when the
decision is true, 0 otherwise). The threshold argument is unused by
the source. Randomness is an explicit byte source indexed by share and
byte position. -/
def generateMpcShares (rng : Nat → Nat → Nat) (decision : Bool)
    (totalShares _threshold : Nat) : List (List Nat) :=
  (List.range totalShares).map (fun i =>
    (List.range 32).map (fun j =>
      if i = 0 ∧ j = 0 then (if decision then 1 else 0) else rng i j % 256))

/-- Base58 alphabet used by Solana public keys (no 0, O, I, l). -/
def base58Alphabet : List Char :=
  ['1', '2', '3', '4', '5', '6', '7', '8', '9',
   'A', 'B', 'C', 'D', 'E', 'F', 'G', 'H', 'J', 'K', 'L', 'M', 'N',
   'P', 'Q', 'R', 'S', 'T', 'U', 'V', 'W', 'X', 'Y', 'Z',
   'a', 'b', 'c', 'd', 'e', 'f', 'g', 'h', 'i', 'j', 'k', 'm', 'n',
   'o', 'p', 'q', 'r', 's', 't', 'u', 'v', 'w', 'x', 'y', 'z']

/-- Little-endian base-58 digits of a number, with an explicit fuel
argument for structural recursion; fuel n is always enough since the
value shrinks by a factor of 58 each step. -/
def base58DigitsAux : Nat → Nat → List Nat
  | 0, _ => []
  | fuel + 1, n => if n = 0 then [] else n % 58 :: base58DigitsAux fuel (n / 58)

/-- Little-endian base-58 digits of a number (empty for 0). -/
def base58Digits (n : Nat) : List Nat := base58DigitsAux n n

/-- Base58 encoding of a byte sequence as performed by
PublicKey.toBase58: each leading zero byte becomes the character 1,
and the remaining big-endian value is written in base 58. -/
def base58Encode (bytes : List Nat) : List Char :=
  List.replicate (bytes.takeWhile (fun b => b == 0)).length '1' ++
    ((base58Digits (bytes.foldl (fun acc b => acc * 256 + b % 256) 0)).reverse.map
      (fun d => base58Alphabet.getD d '1'))

/-- Embeds isValidPublicKey from frontend/zypherweb/lib/solana.ts: a
null key is invalid; otherwise the key is valid exactly when its
base58 encoding is 44 characters long. A key is 32 bytes, here a list
of byte values. -/
def isValidPublicKey (pk : Option (List Nat)) : Bool :=
  match pk with
  | none => false
  | some k => (base58Encode k).length == 44

/-- A concrete one-collateral configuration with the given minimum
collateralization ratio, used to evaluate concrete protocol calls. -/
def demoConfig (ratio : Nat) : GlobalConfig :=
  { admin := 0
    minCollateralRatio := ratio
    hedgeIntervalSeconds := 3600
    approvedCollaterals := [7]
    oracleAccounts := [8]
    pegTokenMint := 9 }

/-- Any product a * b is bounded by a * b * 100. -/
theorem mul_le_mul_hundred (a b : Nat) : a * b ≤ a * b * 100 := by
  have h := Nat.mul_le_mul_left (a * b) (show 1 ≤ 100 by omega)
  simpa using h

/-- Inversion of a successful mint: the debt grew by exactly the mint
amount without exceeding u64, the owner is unchanged, the mint amount
is positive, and the caller received exactly mintAmount peg tokens. -/
theorem mint_ok_inv {cfg : GlobalConfig} {pos : UserPosition} {price ci d m : Nat}
    {p2 : UserPosition} {tk : Nat}
    (h : mintPegToken cfg pos price ci d m = .ok (p2, tk)) :
    p2.mintedDebt = pos.mintedDebt + m ∧ 0 < m ∧ p2.owner = pos.owner ∧ tk = m ∧
      pos.mintedDebt + m ≤ U64MAX := by
  unfold mintPegToken at h
  split_ifs at h with h1 h2 h3 h4 h5 h6 h7 h8 h9
  rw [Except.ok.injEq, Prod.mk.injEq] at h
  obtain ⟨hp, ht⟩ := h
  subst hp
  subst ht
  exact ⟨rfl, by omega, rfl, rfl, by omega⟩

/-- C1 (counterexample): the claim's own example fails on the modelled
code. With minCollateralRatio stored as 150_000_000 (1e8 scale), oracle
price 2 and depositAmount 100, a mint of 50 does NOT succeed: the check
is 100 × 2 × 100 = 20000 ≥ 50 × 150_000_000 = 7_500_000_000, which is
false, so the call fails UnderCollateralized, contradicting the claim
that mintAmount 50 succeeds with these parameters. -/
theorem mintExample_c1_refuted :
    mintPegToken (demoConfig 150000000) (newUserPosition 1 1) 2 0 100 50 =
      .error .UnderCollateralized := by decide

/-- C1 (amended): for every mint call with a valid collateralIndex,
positive depositAmount and mintAmount, and all intermediate values
within the u64 range, the call succeeds exactly when
depositAmount × oraclePrice × 100 ≥ mintAmount × minCollateralRatio, in
which case mintedDebt increases by mintAmount and the caller receives
mintAmount peg tokens; otherwise it fails UnderCollateralized. The
claim's example holds with minCollateralRatio = 150 (percent units,
not the 1e8-scaled 150_000_000): with price 2 and depositAmount 100,
mintAmount 50 succeeds and mintAmount 140 fails UnderCollateralized. -/
theorem mintCollateralCheck_c1 :
    (∀ (cfg : GlobalConfig) (pos : UserPosition) (price ci d m : Nat),
      ci < cfg.approvedCollaterals.length → 0 < d → 0 < m →
      d * price * 100 ≤ U64MAX → m * cfg.minCollateralRatio ≤ U64MAX →
      pos.depositedCollateral.getD ci 0 + d ≤ U64MAX → pos.mintedDebt + m ≤ U64MAX →
      ((m * cfg.minCollateralRatio ≤ d * price * 100 →
          mintPegToken cfg pos price ci d m =
            .ok ({ pos with
                    depositedCollateral :=
                      pos.depositedCollateral.set ci (pos.depositedCollateral.getD ci 0 + d)
                    mintedDebt := pos.mintedDebt + m }, m))
        ∧ (d * price * 100 < m * cfg.minCollateralRatio →
            mintPegToken cfg pos price ci d m = .error .UnderCollateralized)))
    ∧ mintPegToken (demoConfig 150) (newUserPosition 1 1) 2 0 100 50 =
        .ok ({ owner := 1, depositedCollateral := [100], mintedDebt := 50,
               encryptedPositionHash := List.replicate 32 0, lastHedgeTimestamp := 0 }, 50)
    ∧ mintPegToken (demoConfig 150) (newUserPosition 1 1) 2 0 100 140 =
        .error .UnderCollateralized := by
  refine ⟨?_, by decide, by decide⟩
  intro cfg pos price ci d m hci hd hm hb100 hbm hbdep hbdebt
  have hdp : d * price ≤ U64MAX := le_trans (mul_le_mul_hundred d price) hb100
  constructor
  · intro hcmp
    unfold mintPegToken
    rw [if_pos hci, if_neg (by omega), if_neg (by omega), if_neg (Nat.not_lt.mpr hdp),
        if_neg (Nat.not_lt.mpr hb100), if_neg (Nat.not_lt.mpr hbm),
        if_neg (Nat.not_lt.mpr hcmp), if_neg (Nat.not_lt.mpr hbdep),
        if_neg (Nat.not_lt.mpr hbdebt)]
  · intro hcmp
    unfold mintPegToken
    rw [if_pos hci, if_neg (by omega), if_neg (by omega), if_neg (Nat.not_lt.mpr hdp),
        if_neg (Nat.not_lt.mpr hb100), if_neg (Nat.not_lt.mpr hbm), if_pos hcmp]

/-- C1 (witness): the amended theorem applied at price 2, deposit 100,
mint 140 against the percent-unit ratio 150 yields exactly the
UnderCollateralized failure. -/
theorem mintCollateralCheck_c1_w :
    mintPegToken (demoConfig 150) (newUserPosition 1 1) 2 0 100 140 =
      .error .UnderCollateralized :=
  (mintCollateralCheck_c1.1 (demoConfig 150) (newUserPosition 1 1) 2 0 100 140
    (by decide) (by decide) (by decide) (by decide) (by decide) (by decide) (by decide)).2
    (by decide)

/-- C2: with the owner signing, a burn of 0 < burnAmount ≤ mintedDebt
decreases mintedDebt by exactly burnAmount and leaves every other
field unchanged; a full burn (burnAmount = mintedDebt) returns
mintedDebt to 0, and in particular any successful mint followed by a
full burn of the resulting debt ends with mintedDebt = 0; and a
burnAmount greater than mintedDebt always fails InsufficientBalance. -/
theorem burnDebt_c2 :
    (∀ (pos : UserPosition) (a : Nat), 0 < a → a ≤ pos.mintedDebt →
        burnPegToken pos pos.owner a = .ok { pos with mintedDebt := pos.mintedDebt - a })
    ∧ (∀ pos : UserPosition, 0 < pos.mintedDebt →
        burnPegToken pos pos.owner pos.mintedDebt = .ok { pos with mintedDebt := 0 })
    ∧ (∀ (cfg : GlobalConfig) (pos : UserPosition) (price ci d m tk : Nat)
          (p2 : UserPosition),
        mintPegToken cfg pos price ci d m = .ok (p2, tk) →
        burnPegToken p2 p2.owner p2.mintedDebt = .ok { p2 with mintedDebt := 0 })
    ∧ (∀ (pos : UserPosition) (signer a : Nat), pos.mintedDebt < a →
        burnPegToken pos signer a = .error .InsufficientBalance) := by
  have hburn : ∀ (pos : UserPosition) (a : Nat), 0 < a → a ≤ pos.mintedDebt →
      burnPegToken pos pos.owner a = .ok { pos with mintedDebt := pos.mintedDebt - a } := by
    intro pos a ha hle
    unfold burnPegToken
    rw [if_neg (by omega), if_neg (by omega), if_neg (by simp)]
  have hfull : ∀ pos : UserPosition, 0 < pos.mintedDebt →
      burnPegToken pos pos.owner pos.mintedDebt = .ok { pos with mintedDebt := 0 } := by
    intro pos hpos
    have h := hburn pos pos.mintedDebt hpos le_rfl
    rwa [Nat.sub_self] at h
  refine ⟨hburn, hfull, ?_, ?_⟩
  · intro cfg pos price ci d m tk p2 hmint
    obtain ⟨hdebt, hm, -, -, -⟩ := mint_ok_inv hmint
    exact hfull p2 (by omega)
  · intro pos signer a hlt
    unfold burnPegToken
    rw [if_neg (by omega), if_pos hlt]

/-- C2 (witness): burning the full debt of a concrete position with
debt 50 returns the debt to 0. -/
theorem burnDebt_c2_w :
    burnPegToken
      { owner := 1, depositedCollateral := [100], mintedDebt := 50,
        encryptedPositionHash := List.replicate 32 0, lastHedgeTimestamp := 0 } 1 50 =
      .ok { owner := 1, depositedCollateral := [100], mintedDebt := 0,
            encryptedPositionHash := List.replicate 32 0, lastHedgeTimestamp := 0 } :=
  burnDebt_c2.2.1
    { owner := 1, depositedCollateral := [100], mintedDebt := 50,
      encryptedPositionHash := List.replicate 32 0, lastHedgeTimestamp := 0 } (by decide)

/-- C3: for an authorized caller (owner or agent), a triggerHedge call
at time now with now − lastHedgeTimestamp < hedgeIntervalSeconds
always fails HedgeTooFrequent (leaving the position unchanged, since a
failed call mutates nothing), and a call with
now − lastHedgeTimestamp ≥ hedgeIntervalSeconds and a well-formed
proof always succeeds and sets lastHedgeTimestamp := now. -/
theorem hedgeCooldown_c3 :
    ∀ (cfg : GlobalConfig) (pos : UserPosition) (signer agent : Nat) (dec : Bool)
      (proof : List Nat) (now : Int),
      (signer = pos.owner ∨ signer = agent) →
      ((now - pos.lastHedgeTimestamp < cfg.hedgeIntervalSeconds →
          triggerHedge cfg pos signer agent dec proof now = .error .HedgeTooFrequent)
        ∧ (cfg.hedgeIntervalSeconds ≤ now - pos.lastHedgeTimestamp →
            proof.length = hedgeProofLen →
            triggerHedge cfg pos signer agent dec proof now =
              .ok { pos with lastHedgeTimestamp := now })) := by
  intro cfg pos signer agent dec proof now hauth
  have hna : ¬(signer ≠ pos.owner ∧ signer ≠ agent) := by tauto
  constructor
  · intro hfreq
    unfold triggerHedge
    rw [if_neg hna, if_pos hfreq]
  · intro hint hlen
    unfold triggerHedge
    rw [if_neg hna, if_neg (by omega), if_neg (by simp [hlen])]

/-- C3 (witness): with lastHedgeTimestamp 1000, interval 3600 and the
owner signing, a call at time 2000 fails HedgeTooFrequent, while a
call at time 5000 with a 64-byte proof succeeds and records 5000. -/
theorem hedgeCooldown_c3_w :
    triggerHedge (demoConfig 150)
        { owner := 1, depositedCollateral := [100], mintedDebt := 50,
          encryptedPositionHash := List.replicate 32 0, lastHedgeTimestamp := 1000 }
        1 2 true (List.replicate 64 1) 2000 = .error .HedgeTooFrequent ∧
    triggerHedge (demoConfig 150)
        { owner := 1, depositedCollateral := [100], mintedDebt := 50,
          encryptedPositionHash := List.replicate 32 0, lastHedgeTimestamp := 1000 }
        1 2 true (List.replicate 64 1) 5000 =
      .ok { owner := 1, depositedCollateral := [100], mintedDebt := 50,
            encryptedPositionHash := List.replicate 32 0, lastHedgeTimestamp := 5000 } :=
  ⟨(hedgeCooldown_c3 (demoConfig 150)
      { owner := 1, depositedCollateral := [100], mintedDebt := 50,
        encryptedPositionHash := List.replicate 32 0, lastHedgeTimestamp := 1000 }
      1 2 true (List.replicate 64 1) 2000 (Or.inl rfl)).1 (by decide),
   (hedgeCooldown_c3 (demoConfig 150)
      { owner := 1, depositedCollateral := [100], mintedDebt := 50,
        encryptedPositionHash := List.replicate 32 0, lastHedgeTimestamp := 1000 }
      1 2 true (List.replicate 64 1) 5000 (Or.inl rfl)).2 (by decide) (by decide)⟩

/-- C4: on a fresh deployment, initConfig fails InvalidRatio for every
minRatio strictly below the hard floor 100_000_000 (100% at 1e8
scale), and succeeds for every minRatio at or above the floor when the
collateral and oracle lists are nonempty and of equal length. -/
theorem configRatioFloor_c4 :
    (∀ (admin minRatio : Nat) (hi : Int) (cs os : List Nat) (pm : Nat),
        minRatio < 100000000 →
        initConfig none admin minRatio hi cs os pm = .error .InvalidRatio)
    ∧ (∀ (admin minRatio : Nat) (hi : Int) (cs os : List Nat) (pm : Nat),
        100000000 ≤ minRatio → cs.length = os.length → cs ≠ [] → os ≠ [] →
        initConfig none admin minRatio hi cs os pm =
          .ok { admin := admin, minCollateralRatio := minRatio,
                hedgeIntervalSeconds := hi, approvedCollaterals := cs,
                oracleAccounts := os, pegTokenMint := pm }) := by
  constructor
  · intro admin minRatio hi cs os pm hlt
    unfold initConfig
    rw [if_pos (show minRatio < ratioFloor by unfold ratioFloor; omega)]
  · intro admin minRatio hi cs os pm hge hlen hcs hos
    unfold initConfig
    rw [if_neg (show ¬minRatio < ratioFloor by unfold ratioFloor; omega),
        if_neg (by push_neg; exact ⟨hlen, hcs, hos⟩)]

/-- C4 (witness): ratio 99_999_999 is rejected with InvalidRatio and
ratio 150_000_000 is accepted on a fresh deployment with one
collateral/oracle pair. -/
theorem configRatioFloor_c4_w :
    initConfig none 0 99999999 3600 [7] [8] 9 = .error .InvalidRatio ∧
    initConfig none 0 150000000 3600 [7] [8] 9 =
      .ok { admin := 0, minCollateralRatio := 150000000, hedgeIntervalSeconds := 3600,
            approvedCollaterals := [7], oracleAccounts := [8], pegTokenMint := 9 } :=
  ⟨configRatioFloor_c4.1 0 99999999 3600 [7] [8] 9 (by decide),
   configRatioFloor_c4.2 0 150000000 3600 [7] [8] 9 (by decide) (by decide)
     (by decide) (by decide)⟩

/-- C6: creating a market with resolutionTime ≤ now always fails
InvalidResolutionTime and creates no record; with resolutionTime
strictly in the future, a fresh id and a question within the length
bound it always succeeds, and the created market has yesPool = 0,
noPool = 0 and resolved = false. -/
theorem createMarket_c6 :
    ∀ (creator oracle mid : Nat) (rt : Int) (q : List Nat) (now : Int),
      (rt ≤ now →
        createPredictionMarket none creator oracle mid rt q now =
          .error .InvalidResolutionTime)
      ∧ (now < rt → q.length ≤ questionMaxLen →
          createPredictionMarket none creator oracle mid rt q now =
            .ok { creator := creator, resolutionOracle := oracle, questionHash := q,
                  resolutionTime := rt, yesPool := 0, noPool := 0, resolved := false,
                  winningOutcome := none }) := by
  intro creator oracle mid rt q now
  constructor
  · intro hle
    unfold createPredictionMarket
    rw [if_pos hle]
  · intro hgt hq
    unfold createPredictionMarket
    rw [if_neg (by omega), if_neg (by omega)]

/-- C6 (witness): a past resolution time (500 at now = 1000) is
rejected, and a future one (2000 at now = 1000) with a 32-byte
question yields the fresh empty unresolved market. -/
theorem createMarket_c6_w :
    createPredictionMarket none 3 8 1 500 (List.replicate 32 1) 1000 =
      .error .InvalidResolutionTime ∧
    createPredictionMarket none 3 8 1 2000 (List.replicate 32 1) 1000 =
      .ok { creator := 3, resolutionOracle := 8, questionHash := List.replicate 32 1,
            resolutionTime := 2000, yesPool := 0, noPool := 0, resolved := false,
            winningOutcome := none } :=
  ⟨(createMarket_c6 3 8 1 500 (List.replicate 32 1) 1000).1 (by decide),
   (createMarket_c6 3 8 1 2000 (List.replicate 32 1) 1000).2 (by decide) (by decide)⟩

/-- A single accepted yes-bet on an open market increments exactly the
yes pool. -/
theorem betOnMarket_yes (mkt : PredictionMarket) (amount : Nat) (now : Int)
    (hres : mkt.resolved = false) (htime : now < mkt.resolutionTime)
    (hpos : 0 < amount) :
    betOnMarket mkt true amount now =
      .ok { mkt with yesPool := mkt.yesPool + amount } := by
  unfold betOnMarket
  rw [if_neg (by omega), if_neg (by simp [hres]), if_neg (by omega), if_pos (by simp)]

/-- A single accepted no-bet on an open market increments exactly the
no pool. -/
theorem betOnMarket_no (mkt : PredictionMarket) (amount : Nat) (now : Int)
    (hres : mkt.resolved = false) (htime : now < mkt.resolutionTime)
    (hpos : 0 < amount) :
    betOnMarket mkt false amount now =
      .ok { mkt with noPool := mkt.noPool + amount } := by
  unfold betOnMarket
  rw [if_neg (by omega), if_neg (by simp [hres]), if_neg (by omega), if_neg (by simp)]

/-- Processing a bet sequence against an open market adds to each pool
exactly the sum of the accepted amounts on that side. -/
theorem processBets_pools (now : Int) :
    ∀ (bets : List (Bool × Nat)) (mkt : PredictionMarket),
      mkt.resolved = false → now < mkt.resolutionTime →
      (processBets now mkt bets).yesPool = mkt.yesPool + sideSum true bets ∧
      (processBets now mkt bets).noPool = mkt.noPool + sideSum false bets := by
  intro bets
  induction bets with
  | nil =>
    intro mkt h1 h2
    simp [processBets, sideSum]
  | cons b rest ih =>
    intro mkt h1 h2
    obtain ⟨side, amount⟩ := b
    rcases Nat.eq_zero_or_pos amount with hz | hpos
    · subst hz
      have hb : betOnMarket mkt side 0 now = .error .ZeroAmount := by
        unfold betOnMarket
        rw [if_pos rfl]
      simp only [processBets, hb]
      obtain ⟨ihy, ihn⟩ := ih mkt h1 h2
      have hy : sideSum true ((side, 0) :: rest) = sideSum true rest := by
        simp [sideSum]
      have hn : sideSum false ((side, 0) :: rest) = sideSum false rest := by
        simp [sideSum]
      rw [hy, hn]
      exact ⟨ihy, ihn⟩
    · cases side with
      | true =>
        have hb := betOnMarket_yes mkt amount now h1 h2 hpos
        simp only [processBets, hb]
        obtain ⟨ihy, ihn⟩ := ih { mkt with yesPool := mkt.yesPool + amount } h1 h2
        have hy : sideSum true ((true, amount) :: rest) = amount + sideSum true rest := by
          simp [sideSum, hpos]
        have hn : sideSum false ((true, amount) :: rest) = sideSum false rest := by
          simp [sideSum]
        rw [hy, hn, ihy, ihn]
        dsimp only
        omega
      | false =>
        have hb := betOnMarket_no mkt amount now h1 h2 hpos
        simp only [processBets, hb]
        obtain ⟨ihy, ihn⟩ := ih { mkt with noPool := mkt.noPool + amount } h1 h2
        have hy : sideSum true ((false, amount) :: rest) = sideSum true rest := by
          simp [sideSum]
        have hn : sideSum false ((false, amount) :: rest) = amount + sideSum false rest := by
          simp [sideSum, hpos]
        rw [hy, hn, ihy, ihn]
        dsimp only
        omega

/-- C5: on an unresolved market before its resolution time, every
accepted bet with amount > 0 increments exactly the chosen side's pool
by that amount and leaves the other pool unchanged; a zero-amount bet
always fails ZeroAmount and changes neither pool; and over any bet
sequence each pool equals its initial value plus the sum of the
accepted amounts on that side. -/
theorem betPools_c5 :
    ∀ (mkt : PredictionMarket) (now : Int),
      mkt.resolved = false → now < mkt.resolutionTime →
      (∀ amount : Nat, 0 < amount →
          betOnMarket mkt true amount now =
            .ok { mkt with yesPool := mkt.yesPool + amount } ∧
          betOnMarket mkt false amount now =
            .ok { mkt with noPool := mkt.noPool + amount })
      ∧ (∀ side : Bool, betOnMarket mkt side 0 now = .error .ZeroAmount)
      ∧ (∀ bets : List (Bool × Nat),
          (processBets now mkt bets).yesPool = mkt.yesPool + sideSum true bets ∧
          (processBets now mkt bets).noPool = mkt.noPool + sideSum false bets) := by
  intro mkt now h1 h2
  refine ⟨?_, ?_, fun bets => processBets_pools now bets mkt h1 h2⟩
  · intro amount hpos
    exact ⟨betOnMarket_yes mkt amount now h1 h2 hpos,
           betOnMarket_no mkt amount now h1 h2 hpos⟩
  · intro side
    unfold betOnMarket
    rw [if_pos rfl]

/-- C5 (witness): on a concrete open market, a yes-bet of 10 goes to
the yes pool only, a zero bet fails ZeroAmount, and the sequence
yes 10, no 5, yes 0 gives a yes pool equal to the accepted yes sum. -/
theorem betPools_c5_w :
    betOnMarket
        { creator := 3, resolutionOracle := 8, questionHash := [1], resolutionTime := 2000,
          yesPool := 0, noPool := 0, resolved := false, winningOutcome := none }
        true 10 1000 =
      .ok { creator := 3, resolutionOracle := 8, questionHash := [1], resolutionTime := 2000,
            yesPool := 10, noPool := 0, resolved := false, winningOutcome := none } ∧
    betOnMarket
        { creator := 3, resolutionOracle := 8, questionHash := [1], resolutionTime := 2000,
          yesPool := 0, noPool := 0, resolved := false, winningOutcome := none }
        false 0 1000 = .error .ZeroAmount ∧
    (processBets 1000
        { creator := 3, resolutionOracle := 8, questionHash := [1], resolutionTime := 2000,
          yesPool := 0, noPool := 0, resolved := false, winningOutcome := none }
        [(true, 10), (false, 5), (true, 0)]).yesPool =
      0 + sideSum true [(true, 10), (false, 5), (true, 0)] :=
  ⟨((betPools_c5
      { creator := 3, resolutionOracle := 8, questionHash := [1], resolutionTime := 2000,
        yesPool := 0, noPool := 0, resolved := false, winningOutcome := none }
      1000 (by decide) (by decide)).1 10 (by decide)).1,
   (betPools_c5
      { creator := 3, resolutionOracle := 8, questionHash := [1], resolutionTime := 2000,
        yesPool := 0, noPool := 0, resolved := false, winningOutcome := none }
      1000 (by decide) (by decide)).2.1 false,
   ((betPools_c5
      { creator := 3, resolutionOracle := 8, questionHash := [1], resolutionTime := 2000,
        yesPool := 0, noPool := 0, resolved := false, winningOutcome := none }
      1000 (by decide) (by decide)).2.2 [(true, 10), (false, 5), (true, 0)]).1⟩

/-- C7: the fixed-point arithmetic in mintPegToken is checked. With
depositAmount = mintAmount = 2^64 − 1 the call fails Overflow (at
price 2 the collateral-value product already exceeds u64; at price 1
the ×100 step does); in general a u64 overflow in the collateral-value
product, in the ×100 step, or in the ratio product makes the call fail
Overflow with no state mutated; and any successful call performed all
steps exactly, within the u64 range, without wrapping. -/
theorem mintOverflow_c7 :
    mintPegToken (demoConfig 150000000) (newUserPosition 1 1) 2 0 U64MAX U64MAX =
        .error .Overflow
    ∧ mintPegToken (demoConfig 150000000) (newUserPosition 1 1) 1 0 U64MAX U64MAX =
        .error .Overflow
    ∧ (∀ (cfg : GlobalConfig) (pos : UserPosition) (price ci d m : Nat),
        ci < cfg.approvedCollaterals.length → 0 < d → 0 < m →
        U64MAX < d * price →
        mintPegToken cfg pos price ci d m = .error .Overflow)
    ∧ (∀ (cfg : GlobalConfig) (pos : UserPosition) (price ci d m : Nat),
        ci < cfg.approvedCollaterals.length → 0 < d → 0 < m →
        d * price ≤ U64MAX → U64MAX < d * price * 100 →
        mintPegToken cfg pos price ci d m = .error .Overflow)
    ∧ (∀ (cfg : GlobalConfig) (pos : UserPosition) (price ci d m : Nat),
        ci < cfg.approvedCollaterals.length → 0 < d → 0 < m →
        d * price * 100 ≤ U64MAX → U64MAX < m * cfg.minCollateralRatio →
        mintPegToken cfg pos price ci d m = .error .Overflow)
    ∧ (∀ (cfg : GlobalConfig) (pos : UserPosition) (price ci d m tk : Nat)
          (p2 : UserPosition),
        mintPegToken cfg pos price ci d m = .ok (p2, tk) →
        p2.mintedDebt = pos.mintedDebt + m ∧ pos.mintedDebt + m ≤ U64MAX ∧ tk = m) := by
  refine ⟨by decide, by decide, ?_, ?_, ?_, ?_⟩
  · intro cfg pos price ci d m hci hd hm hover
    unfold mintPegToken
    rw [if_pos hci, if_neg (by omega), if_neg (by omega), if_pos hover]
  · intro cfg pos price ci d m hci hd hm hdp hover
    unfold mintPegToken
    rw [if_pos hci, if_neg (by omega), if_neg (by omega), if_neg (Nat.not_lt.mpr hdp),
        if_pos hover]
  · intro cfg pos price ci d m hci hd hm hb100 hover
    have hdp : d * price ≤ U64MAX := le_trans (mul_le_mul_hundred d price) hb100
    unfold mintPegToken
    rw [if_pos hci, if_neg (by omega), if_neg (by omega), if_neg (Nat.not_lt.mpr hdp),
        if_neg (Nat.not_lt.mpr hb100), if_pos hover]
  · intro cfg pos price ci d m tk p2 h
    obtain ⟨hdebt, -, -, htk, hbound⟩ := mint_ok_inv h
    exact ⟨hdebt, hbound, htk⟩

/-- C7 (witness): the ratio-product overflow branch applied at a
concrete input: deposit 1 at price 1 with mint 2^64 − 1 against ratio
150_000_000 overflows the mintAmount × minCollateralRatio product. -/
theorem mintOverflow_c7_w :
    mintPegToken (demoConfig 150000000) (newUserPosition 1 1) 1 0 1 U64MAX =
      .error .Overflow :=
  mintOverflow_c7.2.2.2.2.1 (demoConfig 150000000) (newUserPosition 1 1) 1 0 1 U64MAX
    (by decide) (by decide) (by decide) (by decide) (by decide)

/-- C8: a freshly created position has lastHedgeTimestamp = 0, so the
very first triggerHedge on it passes the rate-limit check for any
configured interval not exceeding the current Unix time (now − 0 ≥
interval) and records the current time; the cooldown then constrains
the second hedge, which fails HedgeTooFrequent when attempted less
than one interval later. -/
theorem firstHedgeFree_c8 :
    ∀ (owner n : Nat) (cfg : GlobalConfig) (signer agent : Nat) (dec : Bool)
      (proof : List Nat) (now now2 : Int),
      (newUserPosition owner n).lastHedgeTimestamp = 0
      ∧ ((signer = owner ∨ signer = agent) → proof.length = hedgeProofLen →
          cfg.hedgeIntervalSeconds ≤ now →
          triggerHedge cfg (newUserPosition owner n) signer agent dec proof now =
            .ok { newUserPosition owner n with lastHedgeTimestamp := now }
          ∧ (now2 - now < cfg.hedgeIntervalSeconds →
              triggerHedge cfg
                { newUserPosition owner n with lastHedgeTimestamp := now }
                signer agent dec proof now2 = .error .HedgeTooFrequent)) := by
  intro owner n cfg signer agent dec proof now now2
  refine ⟨rfl, ?_⟩
  intro hauth hlen hint
  have hown : (newUserPosition owner n).owner = owner := rfl
  have hna : ¬(signer ≠ (newUserPosition owner n).owner ∧ signer ≠ agent) := by
    rw [hown]; tauto
  constructor
  · unfold triggerHedge
    rw [if_neg hna,
        if_neg (show ¬(now - (newUserPosition owner n).lastHedgeTimestamp <
          cfg.hedgeIntervalSeconds) by
            rw [show (newUserPosition owner n).lastHedgeTimestamp = 0 from rfl]; omega),
        if_neg (by simp [hlen])]
  · intro hfreq
    unfold triggerHedge
    rw [if_neg (by dsimp only; rw [hown] at hna; exact hna), if_pos (by dsimp only; omega)]

/-- C8 (witness): with interval 3600 and owner 1 signing, the first
hedge on a fresh position at time 5000 succeeds, and a second hedge at
time 6000 fails HedgeTooFrequent. -/
theorem firstHedgeFree_c8_w :
    triggerHedge (demoConfig 150) (newUserPosition 1 1) 1 2 true
        (List.replicate 64 1) 5000 =
      .ok { newUserPosition 1 1 with lastHedgeTimestamp := 5000 } ∧
    triggerHedge (demoConfig 150) { newUserPosition 1 1 with lastHedgeTimestamp := 5000 }
        1 2 true (List.replicate 64 1) 6000 = .error .HedgeTooFrequent :=
  ⟨((firstHedgeFree_c8 1 1 (demoConfig 150) 1 2 true (List.replicate 64 1) 5000 6000).2
      (Or.inl rfl) (by decide) (by decide)).1,
   ((firstHedgeFree_c8 1 1 (demoConfig 150) 1 2 true (List.replicate 64 1) 5000 6000).2
      (Or.inl rfl) (by decide) (by decide)).2 (by decide)⟩

/-- The first element of a map over an initial segment of the naturals
is the function at 0. -/
theorem headD_map_range {α : Type} (n : Nat) (f : Nat → α) (dflt : α) (hn : 0 < n) :
    ((List.range n).map f).headD dflt = f 0 := by
  obtain ⟨k, rfl⟩ : ∃ k, n = k + 1 := ⟨n - 1, by omega⟩
  rw [List.range_succ_eq_map]
  simp

/-- C9: generateMpcShares returns totalShares 32-byte shares whose
first share carries the decision bit in its first byte (1 for true, 0
for false), for every random source; hence two runs differing only in
the decision are distinguishable from the first share alone, and the
shares do not hide the hedge decision. -/
theorem mpcShareLeak_c9 :
    ∀ (rng : Nat → Nat → Nat) (d : Bool) (total th : Nat), 0 < total →
      (∀ s ∈ generateMpcShares rng d total th, s.length = 32)
      ∧ ((generateMpcShares rng d total th).headD []).headD 0 = (if d then 1 else 0)
      ∧ ((generateMpcShares rng true total th).headD []).headD 0 ≠
          ((generateMpcShares rng false total th).headD []).headD 0 := by
  intro rng d total th htot
  have hhead : ∀ dd : Bool,
      ((generateMpcShares rng dd total th).headD []).headD 0 =
        (if dd then 1 else 0) := by
    intro dd
    unfold generateMpcShares
    rw [headD_map_range total _ _ htot, headD_map_range 32 _ _ (by omega)]
    simp
  refine ⟨?_, hhead d, ?_⟩
  · intro s hs
    unfold generateMpcShares at hs
    simp only [List.mem_map] at hs
    obtain ⟨i, -, rfl⟩ := hs
    simp
  · rw [hhead true, hhead false]
    simp

/-- C9 (witness): with the all-zero random source and 3 shares at
threshold 2, the first byte of the first share is 1 when the decision
is true. -/
theorem mpcShareLeak_c9_w :
    ((generateMpcShares (fun _ _ => 0) true 3 2).headD []).headD 0 = 1 :=
  (mpcShareLeak_c9 (fun _ _ => 0) true 3 2 (by decide)).2.1

/-- C10: isValidPublicKey pk is true exactly when pk is non-null and
its base58 encoding is exactly 44 characters; consequently the valid
32-byte all-zero public key (whose encoding is 32 characters, 43 or
shorter) is rejected, while the all-255 key (44 characters) is
accepted. -/
theorem pubkeyLen_c10 :
    (∀ pk : Option (List Nat), isValidPublicKey pk = true ↔
        ∃ k, pk = some k ∧ (base58Encode k).length = 44)
    ∧ (List.replicate 32 (0 : Nat)).length = 32
    ∧ (base58Encode (List.replicate 32 0)).length = 32
    ∧ isValidPublicKey (some (List.replicate 32 0)) = false
    ∧ isValidPublicKey (some (List.replicate 32 255)) = true := by
  refine ⟨?_, by decide, by decide, by decide, by decide⟩
  intro pk
  cases pk with
  | none => simp [isValidPublicKey]
  | some k => simp [isValidPublicKey]

/-- C10 (witness): the characterization applied to the all-255 key,
whose encoding has exactly 44 characters. -/
theorem pubkeyLen_c10_w : isValidPublicKey (some (List.replicate 32 255)) = true :=
  (pubkeyLen_c10.1 (some (List.replicate 32 255))).mpr
    ⟨List.replicate 32 255, rfl, by decide⟩

end Zypher

